import Mathlib

set_option autoImplicit false

/-!
Shallow embedding of the resource-governance layer of the transit API:
`utils/caching.py` (CacheEntry, InMemoryCache, the `cached` decorator,
`invalidate_cache_pattern`) and `utils/rate_limiting.py` (RateLimit,
UsageRecord, RateLimiter).

Modelling conventions:
* Wall-clock time (`time.time()`) is an explicit `now : Nat` argument threaded
  through every operation; Python float subtraction `now - t` on monotone time
  is `Nat` truncated subtraction (both agree on the comparisons performed).
* A Python `dict` is an association list with in-place replacement on insert,
  mirroring dict key-slot reuse; lookups return the first matching pair.
* Python cache keys are strings, modelled as `List Char` so that the
  `pattern in key` substring test is structural.
* A Python value that may be `None` is an `Option`; `none` is Python `None`.
* The human-readable `reset_times` datetime strings of the rate limiter are
  wall-clock formatting only and are not part of any admit/reject decision,
  so they are omitted from the embedded info record.
-/

namespace TransitGov

/-- Cache keys: Python `str` as a list of characters. -/
abbrev Key := List Char

/-- Python substring containment: `hasSubstr pat s = true` iff `pat` occurs
contiguously in `s` (the Python expression `pat in s` on strings). -/
def hasSubstr (pat : Key) : Key → Bool
  | [] => pat.isEmpty
  | c :: rest => pat.isPrefixOf (c :: rest) || hasSubstr pat rest

/-- Model of `CacheEntry` from `utils/caching.py`: a value with creation time, optional
TTL and access statistics. -/
structure CacheEntry (α : Type) where
  value : α
  created_at : Nat
  ttl_seconds : Option Nat
  access_count : Nat
  last_accessed : Nat
  deriving Repr, DecidableEq

/-- Constructor `CacheEntry.__init__(value, ttl_seconds)` evaluated at time `now`:
`created_at = now`, `access_count = 0`, `last_accessed = created_at`. -/
def CacheEntry.init {α : Type} (value : α) (ttl_seconds : Option Nat) (now : Nat) :
    CacheEntry α :=
  { value := value, created_at := now, ttl_seconds := ttl_seconds,
    access_count := 0, last_accessed := now }

/-- Predicate `CacheEntry.is_expired`: `False` when `ttl_seconds is None`, otherwise
`time.time() - created_at > ttl_seconds`. -/
def CacheEntry.is_expired {α : Type} (e : CacheEntry α) (now : Nat) : Bool :=
  match e.ttl_seconds with
  | none => false
  | some t => decide (now - e.created_at > t)

/-- Method `CacheEntry.access`: returns the value and bumps the access statistics. -/
def CacheEntry.access {α : Type} (e : CacheEntry α) (now : Nat) : α × CacheEntry α :=
  (e.value, { e with access_count := e.access_count + 1, last_accessed := now })

/-- The `_stats` counter dictionary of `InMemoryCache`. -/
structure CacheStats where
  hits : Nat
  misses : Nat
  sets : Nat
  deletes : Nat
  evictions : Nat
  deriving Repr, DecidableEq

/-- All five counters zero: the initial and post-`clear()` statistics. -/
def CacheStats.zero : CacheStats :=
  { hits := 0, misses := 0, sets := 0, deletes := 0, evictions := 0 }

/-- Pointwise order on the statistics counters. -/
def statsLe (s1 s2 : CacheStats) : Prop :=
  s1.hits ≤ s2.hits ∧ s1.misses ≤ s2.misses ∧ s1.sets ≤ s2.sets ∧
    s1.deletes ≤ s2.deletes ∧ s1.evictions ≤ s2.evictions

/-- First entry of the association list holding the given key, if any
(Python `self._cache[cache_key]` / `cache_key in self._cache`). -/
def lookupKey {α : Type} (key : Key) : List (Key × CacheEntry α) → Option (CacheEntry α)
  | [] => none
  | p :: rest => if p.1 = key then some p.2 else lookupKey key rest

/-- Removal of every pair holding the given key (Python `del self._cache[k]`). -/
def eraseKey {α : Type} (key : Key) :
    List (Key × CacheEntry α) → List (Key × CacheEntry α)
  | [] => []
  | p :: rest => if p.1 = key then eraseKey key rest else p :: eraseKey key rest

/-- Python `self._cache[key] = entry`: replace in place when the key is
present, append otherwise. -/
def setKey {α : Type} (key : Key) (e : CacheEntry α) :
    List (Key × CacheEntry α) → List (Key × CacheEntry α)
  | [] => [(key, e)]
  | p :: rest => if p.1 = key then (key, e) :: rest else p :: setKey key e rest

/-- Model of `InMemoryCache` from `utils/caching.py`: the entry map, the configured
default TTL and the statistics counters. -/
structure InMemoryCache (α : Type) where
  cache : List (Key × CacheEntry α)
  default_ttl : Option Nat
  stats : CacheStats
  deriving Repr, DecidableEq

/-- Method `InMemoryCache.get` at time `now` (string keys pass through
`_generate_key` unchanged): a present unexpired entry is a hit and is accessed;
a present expired entry is deleted and counted as an eviction plus a miss; an
absent key is a miss. Returns the Python return value and the updated store. -/
def InMemoryCache.get {α : Type} (c : InMemoryCache α) (key : Key) (now : Nat) :
    Option α × InMemoryCache α :=
  match lookupKey key c.cache with
  | some entry =>
    if entry.is_expired now then
      (none,
        { c with
          cache := eraseKey key c.cache,
          stats := { c.stats with evictions := c.stats.evictions + 1, misses := c.stats.misses + 1 } })
    else
      (some (entry.access now).1,
        { c with
          cache := setKey key (entry.access now).2 c.cache,
          stats := { c.stats with hits := c.stats.hits + 1 } })
  | none =>
    (none, { c with stats := { c.stats with misses := c.stats.misses + 1 } })

/-- Method `InMemoryCache.set` at time `now`: `ttl if ttl is not None else
self.default_ttl`, then a fresh `CacheEntry` replaces any entry at the key. -/
def InMemoryCache.set {α : Type} (c : InMemoryCache α) (key : Key) (value : α)
    (ttl : Option Nat) (now : Nat) : InMemoryCache α :=
  let ttl_to_use := match ttl with | some t => some t | none => c.default_ttl
  { c with
    cache := setKey key (CacheEntry.init value ttl_to_use now) c.cache,
    stats := { c.stats with sets := c.stats.sets + 1 } }

/-- Method `InMemoryCache.delete`: removes the entry when present (counting a delete)
and reports whether it existed. -/
def InMemoryCache.delete {α : Type} (c : InMemoryCache α) (key : Key) :
    Bool × InMemoryCache α :=
  match lookupKey key c.cache with
  | some _ =>
    (true,
      { c with
        cache := eraseKey key c.cache,
        stats := { c.stats with deletes := c.stats.deletes + 1 } })
  | none => (false, c)

/-- Method `InMemoryCache.clear`: empties the map and zeroes every counter. -/
def InMemoryCache.clear {α : Type} (c : InMemoryCache α) : InMemoryCache α :=
  { cache := [], default_ttl := c.default_ttl, stats := CacheStats.zero }

/-- Method `InMemoryCache.cleanup_expired` at time `now`: collects the keys of the
expired entries, deletes each, counts each deletion as an eviction and returns
how many were removed. -/
def InMemoryCache.cleanup_expired {α : Type} (c : InMemoryCache α) (now : Nat) :
    Nat × InMemoryCache α :=
  let expired_keys := (c.cache.filter (fun p => (p.2).is_expired now)).map Prod.fst
  (expired_keys.length,
    { c with
      cache := expired_keys.foldl (fun acc k => eraseKey k acc) c.cache,
      stats := { c.stats with evictions := c.stats.evictions + expired_keys.length } })

/-- Function `invalidate_cache_pattern(pattern)` from `utils/caching.py`: collect every
key of the store containing `pattern` as a substring, delete each through
`InMemoryCache.delete`, and return how many keys were collected. -/
def invalidate_cache_pattern {α : Type} (c : InMemoryCache α) (pattern : Key) :
    Nat × InMemoryCache α :=
  let keys_to_delete := (c.cache.map Prod.fst).filter (fun k => hasSubstr pattern k)
  (keys_to_delete.length, keys_to_delete.foldl (fun acc k => (acc.delete k).2) c)

/-- One invocation, at time `now` and on argument `a`, of the wrapper built by
the `cached(ttl, ...)` decorator around a computation `f` that may return
Python `None` (modelled as `f : σ → Option β`). `key_of` is the deterministic
cache-key derivation (`f"\x7bfunc.__name__\x7d:\x7bhash((args, ...))\x7d"` or the
supplied `key_func`). The wrapper consults the store; a non-`None` stored value
is returned as a hit, otherwise `f` runs and its result is stored. The `Nat`
component counts invocations of `f`; the result is (returned value, store,
updated invocation count). -/
def cachedCall {σ β : Type} (f : σ → Option β) (key_of : σ → Key) (ttl : Option Nat)
    (c : InMemoryCache (Option β)) (calls : Nat) (a : σ) (now : Nat) :
    Option β × InMemoryCache (Option β) × Nat :=
  let key := key_of a
  let got := c.get key now
  match got.1 with
  | some (some v) => (some v, got.2, calls)
  | some none =>
    (f a, (got.2).set key (f a) ttl now, calls + 1)
  | none =>
    (f a, (got.2).set key (f a) ttl now, calls + 1)

/-- Model of `RateLimit` from `utils/rate_limiting.py`. -/
structure RateLimit where
  requests_per_minute : Nat
  requests_per_hour : Nat
  requests_per_day : Nat
  export_size_limit : Nat
  request_size_limit : Nat
  deriving Repr, DecidableEq

/-- Model of `UsageRecord` from `utils/rate_limiting.py`. -/
structure UsageRecord where
  timestamp : Nat
  request_size : Nat
  export_size : Nat
  deriving Repr, DecidableEq

/-- The `RateLimiter.__init__` limit table: the four endpoint categories with
their literal limit values (1MB = 1048576, 512KB = 524288, 5MB = 5242880,
256KB = 262144). -/
def defaultLimitTable : List (String × RateLimit) :=
  [("default", ⟨60, 1000, 10000, 1000, 1048576⟩),
   ("search", ⟨30, 500, 5000, 500, 524288⟩),
   ("export", ⟨5, 50, 200, 10000, 5242880⟩),
   ("system", ⟨120, 2000, 20000, 100, 262144⟩)]

/-- Lookup `self._limits[category]` as a fallible dictionary lookup: `none` is the
`KeyError` branch. -/
def lookupLimit : List (String × RateLimit) → String → Option RateLimit
  | [], _ => none
  | p :: rest, category =>
    if p.1 = category then some p.2 else lookupLimit rest category

/-- Method `RateLimiter.update_limits(category, limits)`: dictionary assignment. -/
def updateLimits : List (String × RateLimit) → String → RateLimit →
    List (String × RateLimit)
  | [], category, l => [(category, l)]
  | p :: rest, category, l =>
    if p.1 = category then (category, l) :: rest else p :: updateLimits rest category l

/-- A sequence of `update_limits` calls applied to a table. -/
def applyUpdates (table : List (String × RateLimit))
    (updates : List (String × RateLimit)) : List (String × RateLimit) :=
  updates.foldl (fun t u => updateLimits t u.1 u.2) table

/-- Method `RateLimiter._get_endpoint_category(path)`: substring dispatch on the URL
path. -/
def get_endpoint_category (path : Key) : String :=
  if hasSubstr "/search".data path then "search"
  else if hasSubstr "/export".data path || hasSubstr "format=".data path then "export"
  else if hasSubstr "/system".data path then "system"
  else "default"

/-- Method `RateLimiter._cleanup_old_records`: pop from the front while the front
record is older than `max_age_seconds`. -/
def cleanup_old_records (now max_age_seconds : Nat) : List UsageRecord → List UsageRecord
  | [] => []
  | r :: rest =>
    if now - r.timestamp > max_age_seconds then cleanup_old_records now max_age_seconds rest
    else r :: rest

/-- The loop of `RateLimiter._count_requests_in_window`: walk the records
newest-first, counting while `now - timestamp <= window_seconds`, stopping at
the first older record. -/
def count_from_newest (now window_seconds : Nat) : List UsageRecord → Nat
  | [] => 0
  | r :: rest =>
    if now - r.timestamp ≤ window_seconds then count_from_newest now window_seconds rest + 1
    else 0

/-- Method `RateLimiter._count_requests_in_window(records, window_seconds)`: the
records deque is oldest-first and the loop iterates over `reversed(records)`. -/
def count_requests_in_window (records : List UsageRecord) (now window_seconds : Nat) : Nat :=
  count_from_newest now window_seconds records.reverse

/-- Python truthiness guard `if x and x > bound` for an optional integer. -/
def truthyGt (x : Option Nat) (bound : Nat) : Bool :=
  match x with
  | none => false
  | some v => decide (v ≠ 0) && decide (v > bound)

/-- The `rate_limit_info` dictionary built by `check_rate_limit` (without the
informational `reset_times` datetime strings; `remaining` uses `max(0, ...)`,
which is `Nat` truncated subtraction). -/
structure RateLimitInfo where
  category : String
  limits : RateLimit
  usage_minute : Nat
  usage_hour : Nat
  usage_day : Nat
  remaining_minute : Nat
  remaining_hour : Nat
  remaining_day : Nat
  exceeded : Option String
  retry_after : Option Nat
  export_size : Option Nat
  request_size : Option Nat
  deriving Repr, DecidableEq

/-- Method `RateLimiter.check_rate_limit` for one client: the limiter state touched by
the call is the client's ledger (deque, oldest first) and the limit table. The
category is resolved from the path, the profile looked up (`none` models the
`KeyError` branch of `self._limits[category]`), the ledger pruned to the
25-hour horizon, the three window counts taken, then minute, hour and day
thresholds checked in that order, then the export-size and request-size
guards; only a fully admitted call appends a `UsageRecord`. Returns
`(is_allowed, rate_limit_info, updated ledger)`. -/
def check_rate_limit (table : List (String × RateLimit)) (ledger : List UsageRecord)
    (path : Key) (export_size request_size : Option Nat) (now : Nat) :
    Option (Bool × RateLimitInfo × List UsageRecord) :=
  let category := get_endpoint_category path
  match lookupLimit table category with
  | none => none
  | some limits =>
    let records := cleanup_old_records now (25 * 3600) ledger
    let usage_minute := count_requests_in_window records now 60
    let usage_hour := count_requests_in_window records now 3600
    let usage_day := count_requests_in_window records now 86400
    let base : RateLimitInfo :=
      { category := category, limits := limits,
        usage_minute := usage_minute, usage_hour := usage_hour,
        usage_day := usage_day,
        remaining_minute := limits.requests_per_minute - usage_minute,
        remaining_hour := limits.requests_per_hour - usage_hour,
        remaining_day := limits.requests_per_day - usage_day,
        exceeded := none, retry_after := none,
        export_size := none, request_size := none }
    if usage_minute ≥ limits.requests_per_minute then
      some (false,
        { base with exceeded := some "requests_per_minute", retry_after := some 60 },
        records)
    else if usage_hour ≥ limits.requests_per_hour then
      some (false,
        { base with exceeded := some "requests_per_hour", retry_after := some 3600 },
        records)
    else if usage_day ≥ limits.requests_per_day then
      some (false,
        { base with exceeded := some "requests_per_day", retry_after := some 86400 },
        records)
    else if truthyGt export_size limits.export_size_limit then
      some (false,
        { base with exceeded := some "export_size_limit", export_size := export_size },
        records)
    else if truthyGt request_size limits.request_size_limit then
      some (false,
        { base with exceeded := some "request_size_limit", request_size := request_size },
        records)
    else
      some (true, base,
        records ++ [⟨now, request_size.getD 0, export_size.getD 0⟩])

/-- Iteration: `n` successive `check_rate_limit` calls for one client at the same time
`now`, threading the ledger (the scenario of repeated requests inside one
window). Returns the final ledger. -/
def runChecks (table : List (String × RateLimit)) (path : Key) (now : Nat) :
    Nat → List UsageRecord → List UsageRecord
  | 0, ledger => ledger
  | n + 1, ledger =>
    match check_rate_limit table ledger path none none now with
    | none => ledger
    | some r => runChecks table path now n r.2.2

/-! ### Association-list lemmas shared by the cache theorems -/

theorem lookupKey_setKey_self {α : Type} (key : Key) (e : CacheEntry α)
    (l : List (Key × CacheEntry α)) : lookupKey key (setKey key e l) = some e := by
  induction l with
  | nil => simp [setKey, lookupKey]
  | cons p rest ih =>
    obtain ⟨pk, pe⟩ := p
    by_cases h : pk = key
    · simp [setKey, lookupKey, h]
    · simp [setKey, lookupKey, h, ih]

theorem lookupKey_setKey_ne {α : Type} (k key : Key) (e : CacheEntry α)
    (l : List (Key × CacheEntry α)) (h : k ≠ key) :
    lookupKey k (setKey key e l) = lookupKey k l := by
  have hne : key ≠ k := Ne.symm h
  induction l with
  | nil => simp [setKey, lookupKey, hne]
  | cons p rest ih =>
    obtain ⟨pk, pe⟩ := p
    by_cases hp : pk = key
    · subst hp
      simp [setKey, lookupKey, hne]
    · simp [setKey, lookupKey, hp, ih]

theorem lookupKey_eraseKey_self {α : Type} (key : Key) (l : List (Key × CacheEntry α)) :
    lookupKey key (eraseKey key l) = none := by
  induction l with
  | nil => rfl
  | cons p rest ih =>
    obtain ⟨pk, pe⟩ := p
    by_cases h : pk = key
    · simpa [eraseKey, h] using ih
    · simpa [eraseKey, lookupKey, h] using ih

theorem lookupKey_eraseKey_ne {α : Type} (k key : Key) (l : List (Key × CacheEntry α))
    (h : k ≠ key) : lookupKey k (eraseKey key l) = lookupKey k l := by
  induction l with
  | nil => rfl
  | cons p rest ih =>
    obtain ⟨pk, pe⟩ := p
    by_cases hk : pk = k
    · subst hk
      simp [eraseKey, lookupKey, h]
    · by_cases hp : pk = key
      · subst hp
        simpa [eraseKey, lookupKey, hk] using ih
      · simpa [eraseKey, lookupKey, hk, hp] using ih

theorem eraseKey_of_lookup_none {α : Type} (key : Key) (l : List (Key × CacheEntry α))
    (h : lookupKey key l = none) : eraseKey key l = l := by
  revert h
  induction l with
  | nil => intro _; rfl
  | cons p rest ih =>
    intro h
    obtain ⟨pk, pe⟩ := p
    by_cases hp : pk = key
    · simp only [lookupKey, hp, if_true] at h
      exact Option.noConfusion h
    · simp only [lookupKey, hp, if_false] at h
      simp [eraseKey, hp, ih h]

theorem lookupKey_none_eraseKey {α : Type} (k key : Key) (l : List (Key × CacheEntry α))
    (h : lookupKey k l = none) : lookupKey k (eraseKey key l) = none := by
  by_cases hk : k = key
  · rw [hk]; exact lookupKey_eraseKey_self key l
  · rw [lookupKey_eraseKey_ne k key l hk]; exact h

theorem delete_cache {α : Type} (c : InMemoryCache α) (key : Key) :
    ((c.delete key).2).cache = eraseKey key c.cache := by
  unfold InMemoryCache.delete
  cases h : lookupKey key c.cache with
  | some e => simp
  | none => simp [eraseKey_of_lookup_none key c.cache h]

theorem lookupKey_mem_of_some {α : Type} (k : Key) (e : CacheEntry α)
    (l : List (Key × CacheEntry α)) (h : lookupKey k l = some e) : k ∈ l.map Prod.fst := by
  induction l with
  | nil => exact Option.noConfusion h
  | cons p rest ih =>
    obtain ⟨pk, pe⟩ := p
    by_cases hp : pk = k
    · rw [List.map_cons, hp]
      exact List.mem_cons_self k _
    · simp only [lookupKey, hp, if_false] at h
      rw [List.map_cons]
      exact List.mem_cons_of_mem pk (ih h)

theorem lookupKey_foldl_erase_none {α : Type} (k : Key) (ks : List Key)
    (l : List (Key × CacheEntry α)) (h : lookupKey k l = none) :
    lookupKey k (ks.foldl (fun acc k2 => eraseKey k2 acc) l) = none := by
  induction ks generalizing l with
  | nil => simpa using h
  | cons k2 rest ih =>
    simp only [List.foldl_cons]
    exact ih (eraseKey k2 l) (lookupKey_none_eraseKey k k2 l h)

theorem lookupKey_foldl_erase_mem {α : Type} (k : Key) (ks : List Key)
    (l : List (Key × CacheEntry α)) (h : k ∈ ks) :
    lookupKey k (ks.foldl (fun acc k2 => eraseKey k2 acc) l) = none := by
  induction ks generalizing l with
  | nil => simp at h
  | cons k2 rest ih =>
    simp only [List.foldl_cons]
    rcases List.mem_cons.mp h with h1 | h2
    · exact lookupKey_foldl_erase_none k rest (eraseKey k2 l)
        (by rw [h1]; exact lookupKey_eraseKey_self k2 l)
    · exact ih (eraseKey k2 l) h2

theorem lookupKey_foldl_erase_not_mem {α : Type} (k : Key) (ks : List Key)
    (l : List (Key × CacheEntry α)) (h : k ∉ ks) :
    lookupKey k (ks.foldl (fun acc k2 => eraseKey k2 acc) l) = lookupKey k l := by
  induction ks generalizing l with
  | nil => simp
  | cons k2 rest ih =>
    simp only [List.foldl_cons]
    have hk2 : k ≠ k2 := fun hh => h (by rw [hh]; exact List.mem_cons_self k2 rest)
    have hrest : k ∉ rest := fun hh => h (List.mem_cons_of_mem k2 hh)
    rw [ih (eraseKey k2 l) hrest, lookupKey_eraseKey_ne k k2 l hk2]

/-- The freshly constructed `InMemoryCache()` with a given default TTL: empty
map and zero counters. -/
def InMemoryCache.empty (α : Type) (default_ttl : Option Nat) : InMemoryCache α :=
  { cache := [], default_ttl := default_ttl, stats := CacheStats.zero }

/-- C10: `set(key, value, ttl)` installs a fresh entry at the key — regardless
of any previous entry there — whose `access_count` is `0` and whose
`created_at` and `last_accessed` both equal the time of the `set`, the TTL
being the given one or the store default; so a previous entry's access
statistics and age are discarded, never carried over. -/
theorem C10_set_installs_fresh_entry {α : Type} (c : InMemoryCache α) (key : Key)
    (v : α) (ttl : Option Nat) (now : Nat) :
    lookupKey key ((c.set key v ttl now).cache) =
      some { value := v, created_at := now,
             ttl_seconds := match ttl with | some t => some t | none => c.default_ttl,
             access_count := 0, last_accessed := now } := by
  simp [InMemoryCache.set, lookupKey_setKey_self, CacheEntry.init]

/-- C5: after `set(key, value, some ttl)` with `ttl > 0` at time `now`, an
immediate `get(key)` returns the value; at any later time `now2` with elapsed
time strictly greater than `ttl`, `get(key)` returns `none` and the expired
entry has been deleted from the store as a side effect of the read; and an
entry whose TTL is absent is never expired (`get` is a total function of the
embedding, so it cannot raise). -/
theorem C5_set_get_expiry {α : Type} (c : InMemoryCache α) (key : Key) (v : α)
    (ttl now now2 t t2 : Nat)
    (httl : 0 < ttl) (hle : now ≤ now2) (hexp : now2 - now > ttl) :
    (((c.set key v (some ttl) now).get key now).1 = some v) ∧
    (((c.set key v (some ttl) now).get key now2).1 = none) ∧
    (lookupKey key ((((c.set key v (some ttl) now).get key now2).2).cache) = none) ∧
    ((CacheEntry.init v none t2).is_expired t = false) := by
  refine ⟨?_, ?_, ?_, ?_⟩
  · simp [InMemoryCache.set, InMemoryCache.get, lookupKey_setKey_self,
      CacheEntry.init, CacheEntry.is_expired, CacheEntry.access]
  · simp [InMemoryCache.set, InMemoryCache.get, lookupKey_setKey_self,
      CacheEntry.init, CacheEntry.is_expired, hexp]
  · simp [InMemoryCache.set, InMemoryCache.get, lookupKey_setKey_self,
      CacheEntry.init, CacheEntry.is_expired, hexp, lookupKey_eraseKey_self]
  · simp [CacheEntry.init, CacheEntry.is_expired]

/-- Witness for C5 at a concrete input: key `"k"`, value `7`, TTL `5`,
written at time `0`, read back at times `0` and `10`. -/
theorem C5_set_get_expiry_witness :
    ((((InMemoryCache.empty Nat (some 300)).set ['k'] 7 (some 5) 0).get ['k'] 0).1 = some 7) ∧
    ((((InMemoryCache.empty Nat (some 300)).set ['k'] 7 (some 5) 0).get ['k'] 10).1 = none) ∧
    (lookupKey ['k'] (((((InMemoryCache.empty Nat (some 300)).set ['k'] 7 (some 5) 0).get ['k'] 10).2).cache) = none) ∧
    ((CacheEntry.init 7 none 2).is_expired 1 = false) :=
  C5_set_get_expiry (InMemoryCache.empty Nat (some 300)) ['k'] 7 5 0 10 1 2
    (by decide) (by decide) (by decide)

/-- C7: each of the five statistics counters is non-decreasing across `get`,
`set`, `delete` and `cleanup_expired`, and `clear()` empties the store and
resets all five counters to zero. -/
theorem C7_counters_monotone_and_clear {α : Type} (c : InMemoryCache α) (key : Key)
    (v : α) (ttl : Option Nat) (now : Nat) :
    statsLe c.stats ((c.get key now).2).stats ∧
    statsLe c.stats (c.set key v ttl now).stats ∧
    statsLe c.stats ((c.delete key).2).stats ∧
    statsLe c.stats ((c.cleanup_expired now).2).stats ∧
    (c.clear).cache = [] ∧ (c.clear).stats = CacheStats.zero := by
  refine ⟨?_, ?_, ?_, ?_, rfl, rfl⟩
  · unfold InMemoryCache.get
    cases lookupKey key c.cache with
    | some e =>
      by_cases h : e.is_expired now
      · simp [h, statsLe]
      · simp [h, statsLe]
    | none => simp [statsLe]
  · simp [InMemoryCache.set, statsLe]
  · unfold InMemoryCache.delete
    cases lookupKey key c.cache with
    | some e => simp [statsLe]
    | none => simp [statsLe]
  · simp [InMemoryCache.cleanup_expired, statsLe]

theorem length_filter_map_fst {α : Type} (pattern : Key) (l : List (Key × CacheEntry α)) :
    ((l.map Prod.fst).filter (fun k => hasSubstr pattern k)).length =
      (l.filter (fun p => hasSubstr pattern p.1)).length := by
  induction l with
  | nil => rfl
  | cons p rest ih =>
    cases h : hasSubstr pattern p.1 with
    | true => simp [List.filter_cons, h, ih]
    | false => simp [List.filter_cons, h, ih]

theorem foldl_delete_cache {α : Type} (ks : List Key) (c : InMemoryCache α) :
    ((ks.foldl (fun acc k => (acc.delete k).2) c).cache) =
      ks.foldl (fun l k => eraseKey k l) c.cache := by
  induction ks generalizing c with
  | nil => rfl
  | cons k2 rest ih =>
    simp only [List.foldl_cons]
    rw [ih ((c.delete k2).2), delete_cache]

/-- C8: `invalidate_cache_pattern(pattern)` returns the number of entries whose
key contains `pattern` as a substring, and afterwards a key `k` maps to
nothing when it contains the pattern and to its untouched previous entry
otherwise (so exactly the matching entries are deleted). -/
theorem C8_invalidate_by_pattern {α : Type} (c : InMemoryCache α) (pattern k : Key) :
    (invalidate_cache_pattern c pattern).1 =
      (c.cache.filter (fun p => hasSubstr pattern p.1)).length ∧
    lookupKey k (((invalidate_cache_pattern c pattern).2).cache) =
      (if hasSubstr pattern k = true then none else lookupKey k c.cache) := by
  constructor
  · simp only [invalidate_cache_pattern]
    exact length_filter_map_fst pattern c.cache
  · simp only [invalidate_cache_pattern]
    rw [foldl_delete_cache]
    by_cases hk : hasSubstr pattern k = true
    · rw [if_pos hk]
      cases hsome : lookupKey k c.cache with
      | some e =>
        apply lookupKey_foldl_erase_mem
        exact List.mem_filter.mpr ⟨lookupKey_mem_of_some k e c.cache hsome, hk⟩
      | none => exact lookupKey_foldl_erase_none _ _ _ hsome
    · rw [if_neg hk]
      apply lookupKey_foldl_erase_not_mem
      intro hmem
      exact hk (List.mem_filter.mp hmem).2

theorem cachedCall_miss {σ β : Type} (f : σ → Option β) (key_of : σ → Key)
    (ttl : Option Nat) (c : InMemoryCache (Option β)) (k0 : Nat) (a : σ) (now : Nat)
    (hmiss : lookupKey (key_of a) c.cache = none) :
    cachedCall f key_of ttl c k0 a now =
      (f a,
       InMemoryCache.set
         { c with stats := { c.stats with misses := c.stats.misses + 1 } }
         (key_of a) (f a) ttl now,
       k0 + 1) := by
  simp [cachedCall, InMemoryCache.get, hmiss]

theorem cachedCall_hit {σ β : Type} (f : σ → Option β) (key_of : σ → Key)
    (ttl : Option Nat) (c : InMemoryCache (Option β)) (k0 : Nat) (a : σ) (now : Nat)
    (e : CacheEntry (Option β)) (v : β)
    (hfound : lookupKey (key_of a) c.cache = some e)
    (hlive : e.is_expired now = false)
    (hval : e.value = some v) :
    cachedCall f key_of ttl c k0 a now =
      (some v,
       { c with
         cache := setKey (key_of a) (e.access now).2 c.cache,
         stats := { c.stats with hits := c.stats.hits + 1 } },
       k0) := by
  simp [cachedCall, InMemoryCache.get, hfound, hlive, CacheEntry.access, hval]

/-- C1 (amended): for a wrapped computation `f` that never returns Python
`None` on the relevant arguments and a key derivation separating the two
argument values, a first call on a cold key invokes `f` once and performs
exactly one store `set`; a second call with the identical argument within the
TTL is served from the cache — `f` is not invoked again and the store `set`
counter is unchanged; a further call with a different (also cold) argument
invokes `f` again, with one more `set`. -/
theorem C1_cached_memoization {σ β : Type} (f : σ → Option β) (key_of : σ → Key)
    (ttl : Nat) (c : InMemoryCache (Option β)) (k0 : Nat) (a a2 : σ) (now1 now2 : Nat)
    (r1 r2 r3 : Option β) (c1 c2 c3 : InMemoryCache (Option β)) (k1 k2 k3 : Nat)
    (hmiss : lookupKey (key_of a) c.cache = none)
    (hmiss2 : lookupKey (key_of a2) c.cache = none)
    (hfa : f a ≠ none)
    (hkey : key_of a2 ≠ key_of a)
    (hwin : now2 - now1 ≤ ttl)
    (h1 : cachedCall f key_of (some ttl) c k0 a now1 = (r1, c1, k1))
    (h2 : cachedCall f key_of (some ttl) c1 k1 a now2 = (r2, c2, k2))
    (h3 : cachedCall f key_of (some ttl) c2 k2 a2 now2 = (r3, c3, k3)) :
    r1 = f a ∧ k1 = k0 + 1 ∧ c1.stats.sets = c.stats.sets + 1 ∧
    r2 = f a ∧ k2 = k1 ∧ c2.stats.sets = c1.stats.sets ∧
    r3 = f a2 ∧ k3 = k2 + 1 ∧ c3.stats.sets = c2.stats.sets + 1 := by
  obtain ⟨v, hv⟩ := Option.ne_none_iff_exists'.mp hfa
  rw [cachedCall_miss f key_of (some ttl) c k0 a now1 hmiss] at h1
  simp only [Prod.mk.injEq] at h1
  obtain ⟨hr1, hc1, hk1⟩ := h1
  have hc1cache : c1.cache = setKey (key_of a) (CacheEntry.init (f a) (some ttl) now1) c.cache := by
    rw [← hc1]; simp [InMemoryCache.set]
  have hfound : lookupKey (key_of a) c1.cache = some (CacheEntry.init (f a) (some ttl) now1) := by
    rw [hc1cache]; exact lookupKey_setKey_self _ _ _
  have hlive : (CacheEntry.init (f a) (some ttl) now1).is_expired now2 = false := by
    simp only [CacheEntry.init, CacheEntry.is_expired]
    simp only [decide_eq_false_iff_not]
    omega
  rw [cachedCall_hit f key_of (some ttl) c1 k1 a now2
      (CacheEntry.init (f a) (some ttl) now1) v hfound hlive
      (by simp [CacheEntry.init, hv])] at h2
  simp only [Prod.mk.injEq] at h2
  obtain ⟨hr2, hc2, hk2⟩ := h2
  have hm3 : lookupKey (key_of a2) c2.cache = none := by
    rw [← hc2]
    show lookupKey (key_of a2)
      (setKey (key_of a) ((CacheEntry.init (f a) (some ttl) now1).access now2).2 c1.cache) = none
    rw [lookupKey_setKey_ne _ _ _ _ hkey, hc1cache,
      lookupKey_setKey_ne _ _ _ _ hkey]
    exact hmiss2
  rw [cachedCall_miss f key_of (some ttl) c2 k2 a2 now2 hm3] at h3
  simp only [Prod.mk.injEq] at h3
  obtain ⟨hr3, hc3, hk3⟩ := h3
  refine ⟨hr1.symm, hk1.symm, ?_, ?_, hk2.symm, ?_, hr3.symm, hk3.symm, ?_⟩
  · rw [← hc1]; simp [InMemoryCache.set]
  · rw [← hr2, hv]
  · rw [← hc2]
  · rw [← hc3]; simp [InMemoryCache.set]

/-- A computation that always returns Python `None`. -/
def noneFn : Nat → Option Nat := fun _ => none

/-- A computation that never returns Python `None`. -/
def someFn : Nat → Option Nat := fun n => some (n + n)

/-- A key derivation that separates distinct small naturals. -/
def replKey : Nat → Key := fun n => List.replicate n 'a'

/-- First wrapper call of the C1 witness scenario (cold cache, argument 1,
time 0). -/
def w1 : Option Nat × InMemoryCache (Option Nat) × Nat :=
  cachedCall someFn replKey (some 10) (InMemoryCache.empty (Option Nat) (some 300)) 0 1 0

/-- Second wrapper call of the C1 witness scenario (same argument 1, time 3,
within the TTL of 10). -/
def w2 : Option Nat × InMemoryCache (Option Nat) × Nat :=
  cachedCall someFn replKey (some 10) w1.2.1 w1.2.2 1 3

/-- Third wrapper call of the C1 witness scenario (different argument 2). -/
def w3 : Option Nat × InMemoryCache (Option Nat) × Nat :=
  cachedCall someFn replKey (some 10) w2.2.1 w2.2.2 2 3

/-- Witness for the amended C1 at the concrete scenario `w1`, `w2`, `w3`. -/
theorem C1_cached_memoization_witness :
    w1.1 = someFn 1 ∧ w1.2.2 = 0 + 1 ∧
    w1.2.1.stats.sets = (InMemoryCache.empty (Option Nat) (some 300)).stats.sets + 1 ∧
    w2.1 = someFn 1 ∧ w2.2.2 = w1.2.2 ∧ w2.2.1.stats.sets = w1.2.1.stats.sets ∧
    w3.1 = someFn 2 ∧ w3.2.2 = w2.2.2 + 1 ∧ w3.2.1.stats.sets = w2.2.1.stats.sets + 1 :=
  C1_cached_memoization someFn replKey 10 (InMemoryCache.empty (Option Nat) (some 300))
    0 1 2 0 3 w1.1 w2.1 w3.1 w1.2.1 w2.2.1 w3.2.1 w1.2.2 w2.2.2 w3.2.2
    rfl rfl (by decide) (by decide) (by decide) rfl rfl rfl

/-- Counterexample to C1 as stated: for the wrapped computation that returns
Python `None`, two wrapper calls with the identical argument `0` within the
TTL invoke the computation twice, not once, and the second (cache-hit) call
still performs a store `set` — the invocation counter reaches `2` and the
`sets` counter reaches `2`. -/
theorem C1_counterexample_none_result :
    (cachedCall noneFn replKey (some 10)
      (cachedCall noneFn replKey (some 10) (InMemoryCache.empty (Option Nat) (some 300)) 0 0 0).2.1
      (cachedCall noneFn replKey (some 10) (InMemoryCache.empty (Option Nat) (some 300)) 0 0 0).2.2
      0 3).2.2 = 2 ∧
    (cachedCall noneFn replKey (some 10)
      (cachedCall noneFn replKey (some 10) (InMemoryCache.empty (Option Nat) (some 300)) 0 0 0).2.1
      (cachedCall noneFn replKey (some 10) (InMemoryCache.empty (Option Nat) (some 300)) 0 0 0).2.2
      0 3).2.1.stats.sets = 2 := by
  decide

/-! ### Rate limiter theorems -/

theorem lookupLimit_updateLimits_isSome (t : List (String × RateLimit))
    (k k2 : String) (v : RateLimit) (h : (lookupLimit t k).isSome = true) :
    (lookupLimit (updateLimits t k2 v) k).isSome = true := by
  induction t with
  | nil => simp [lookupLimit] at h
  | cons p rest ih =>
    by_cases hp : p.1 = k2
    · by_cases hk : k2 = k
      · simp [updateLimits, lookupLimit, hp, hk]
      · simp only [lookupLimit, hp, hk] at h ⊢
        simp only [updateLimits, hp, if_true, lookupLimit, hk, if_false]
        simpa [lookupLimit, hp, hk] using h
    · by_cases hk : p.1 = k
      · have hkk2 : ¬k = k2 := by rw [← hk]; exact hp
        simp [updateLimits, lookupLimit, hp, hk, hkk2]
      · simp only [updateLimits, hp, if_false]
        simp only [lookupLimit, hk, if_false] at h ⊢
        exact ih h

theorem category_in_default_table (path : Key) :
    (lookupLimit defaultLimitTable (get_endpoint_category path)).isSome = true := by
  unfold get_endpoint_category
  split_ifs <;> rfl

theorem lookupLimit_applyUpdates_isSome (updates : List (String × RateLimit))
    (t : List (String × RateLimit)) (k : String)
    (h : (lookupLimit t k).isSome = true) :
    (lookupLimit (applyUpdates t updates) k).isSome = true := by
  induction updates generalizing t with
  | nil => exact h
  | cons u rest ih =>
    exact ih (updateLimits t u.1 u.2) (lookupLimit_updateLimits_isSome t k u.1 u.2 h)

/-- C6: for every path, optional sizes, ledger state and any sequence of
`update_limits` reconfigurations of the initial table, the resolved endpoint
category is present in the limit table (the `KeyError` branch of
`self._limits[category]` is unreachable) and `check_rate_limit` returns a
structured decision — it never fails. -/
theorem C6_check_rate_limit_total (updates : List (String × RateLimit))
    (ledger : List UsageRecord) (path : Key) (es rs : Option Nat) (now : Nat) :
    (lookupLimit (applyUpdates defaultLimitTable updates) (get_endpoint_category path)).isSome = true ∧
    (check_rate_limit (applyUpdates defaultLimitTable updates) ledger path es rs now).isSome = true := by
  have hl := lookupLimit_applyUpdates_isSome updates defaultLimitTable
    (get_endpoint_category path) (category_in_default_table path)
  refine ⟨hl, ?_⟩
  obtain ⟨limits, hlim⟩ := Option.isSome_iff_exists.mp hl
  simp only [check_rate_limit, hlim]
  split_ifs <;> rfl

/-- The URL path of a plain (default-category) endpoint. -/
def stopsPath : Key := "/stops".data

/-- C3: starting from an empty ledger, 61 admission checks for a default
profile (`requests_per_minute = 60`) all at the same instant: the 60th call
is admitted (and appended, so 60 records exist), while the 61st is rejected
with `exceeded = "requests_per_minute"` and `retry_after = 60`; the reported
minute usage of the 61st call is 60, showing the count is taken before the
(withheld) append and compared with `>=`. -/
theorem C3_sixtieth_allowed_sixty_first_rejected :
    ((check_rate_limit defaultLimitTable
        (runChecks defaultLimitTable stopsPath 100000 59 []) stopsPath none none 100000).map
      (fun r => r.1) = some true) ∧
    ((runChecks defaultLimitTable stopsPath 100000 60 []).length = 60) ∧
    ((check_rate_limit defaultLimitTable
        (runChecks defaultLimitTable stopsPath 100000 60 []) stopsPath none none 100000).map
      (fun r => (r.1, r.2.1.exceeded, r.2.1.retry_after, r.2.1.usage_minute)) =
      some (false, some "requests_per_minute", some 60, 60)) := by
  decide

/-- C2: the window thresholds are evaluated minute, then hour, then day; a
violated window rejects immediately, the smallest violated window is reported
with `retry_after` equal to its duration, and a minute-window violation wins
regardless of how far below their limits the hour and day windows are. The
counts are taken over the ledger pruned to the 25-hour horizon, as in the
code. -/
theorem C2_window_order (table : List (String × RateLimit)) (ledger : List UsageRecord)
    (path : Key) (es rs : Option Nat) (now : Nat) (limits : RateLimit)
    (allowed : Bool) (info : RateLimitInfo) (led2 : List UsageRecord)
    (hlim : lookupLimit table (get_endpoint_category path) = some limits)
    (hrun : check_rate_limit table ledger path es rs now = some (allowed, info, led2)) :
    (count_requests_in_window (cleanup_old_records now (25 * 3600) ledger) now 60 ≥
        limits.requests_per_minute →
      allowed = false ∧ info.exceeded = some "requests_per_minute" ∧
        info.retry_after = some 60) ∧
    (count_requests_in_window (cleanup_old_records now (25 * 3600) ledger) now 60 <
        limits.requests_per_minute →
      count_requests_in_window (cleanup_old_records now (25 * 3600) ledger) now 3600 ≥
        limits.requests_per_hour →
      allowed = false ∧ info.exceeded = some "requests_per_hour" ∧
        info.retry_after = some 3600) ∧
    (count_requests_in_window (cleanup_old_records now (25 * 3600) ledger) now 60 <
        limits.requests_per_minute →
      count_requests_in_window (cleanup_old_records now (25 * 3600) ledger) now 3600 <
        limits.requests_per_hour →
      count_requests_in_window (cleanup_old_records now (25 * 3600) ledger) now 86400 ≥
        limits.requests_per_day →
      allowed = false ∧ info.exceeded = some "requests_per_day" ∧
        info.retry_after = some 86400) := by
  simp only [check_rate_limit, hlim] at hrun
  refine ⟨?_, ?_, ?_⟩
  · intro hm
    rw [if_pos hm] at hrun
    simp only [Option.some.injEq, Prod.mk.injEq] at hrun
    obtain ⟨ha, hi, hl⟩ := hrun
    exact ⟨ha.symm, by rw [← hi], by rw [← hi]⟩
  · intro hm hh
    rw [if_neg (by omega), if_pos hh] at hrun
    simp only [Option.some.injEq, Prod.mk.injEq] at hrun
    obtain ⟨ha, hi, hl⟩ := hrun
    exact ⟨ha.symm, by rw [← hi], by rw [← hi]⟩
  · intro hm hh hd
    rw [if_neg (by omega), if_neg (by omega), if_pos hd] at hrun
    simp only [Option.some.injEq, Prod.mk.injEq] at hrun
    obtain ⟨ha, hi, hl⟩ := hrun
    exact ⟨ha.symm, by rw [← hi], by rw [← hi]⟩

/-- A placeholder info record, used only as the default of `checkOut`. -/
def emptyInfo : RateLimitInfo :=
  { category := "default", limits := ⟨0, 0, 0, 0, 0⟩,
    usage_minute := 0, usage_hour := 0, usage_day := 0,
    remaining_minute := 0, remaining_hour := 0, remaining_day := 0,
    exceeded := none, retry_after := none, export_size := none, request_size := none }

/-- The decision of `check_rate_limit` unwrapped (total on the concrete
inputs used by the witnesses, where the lookup succeeds). -/
def checkOut (table : List (String × RateLimit)) (ledger : List UsageRecord)
    (path : Key) (es rs : Option Nat) (now : Nat) :
    Bool × RateLimitInfo × List UsageRecord :=
  (check_rate_limit table ledger path es rs now).getD (true, emptyInfo, [])

/-- A ledger holding 60 usage records at time 100000 (a full default minute
window). -/
def fullMinuteLedger : List UsageRecord := List.replicate 60 ⟨100000, 0, 0⟩

/-- Witness for C2 at a concrete input: with the default profile and a full
minute window, the minute constraint is reported with `retry_after = 60`. -/
theorem C2_window_order_witness :
    (checkOut defaultLimitTable fullMinuteLedger stopsPath none none 100000).1 = false ∧
    (checkOut defaultLimitTable fullMinuteLedger stopsPath none none 100000).2.1.exceeded =
      some "requests_per_minute" ∧
    (checkOut defaultLimitTable fullMinuteLedger stopsPath none none 100000).2.1.retry_after =
      some 60 :=
  (C2_window_order defaultLimitTable fullMinuteLedger stopsPath none none 100000
    ⟨60, 1000, 10000, 1000, 1048576⟩
    (checkOut defaultLimitTable fullMinuteLedger stopsPath none none 100000).1
    (checkOut defaultLimitTable fullMinuteLedger stopsPath none none 100000).2.1
    (checkOut defaultLimitTable fullMinuteLedger stopsPath none none 100000).2.2
    (by decide) (by decide)).1 (by decide)

/-- Counterexample to C4 as stated: a client whose minute window is already
full and whose `export_size` (2000) exceeds the default profile's
`export_size_limit` (1000) is rejected with `exceeded =
"requests_per_minute"`, not with the export-size reason — the size checks are
not independent of the time-window state. -/
theorem C4_counterexample_window_first :
    ((lookupLimit defaultLimitTable (get_endpoint_category stopsPath)).map
      (fun l => l.export_size_limit) = some 1000) ∧
    (2000 > (1000 : Nat)) ∧
    ((check_rate_limit defaultLimitTable fullMinuteLedger stopsPath (some 2000) none 100000).map
      (fun r => (r.1, r.2.1.exceeded)) = some (false, some "requests_per_minute")) ∧
    ((check_rate_limit defaultLimitTable fullMinuteLedger stopsPath (some 2000) none 100000).map
      (fun r => r.2.1.exceeded) ≠ some (some "export_size_limit")) := by
  decide

/-- C4 (amended): when no time window is at its limit (the window checks run
first and take precedence), a supplied `export_size` above the profile's
`export_size_limit` rejects with exactly that reason, and otherwise a supplied
`request_size` above `request_size_limit` rejects with that reason; a
size-based rejection leaves the ledger as pruned — no usage record is
appended — so in particular a client with zero prior requests is rejected on
its very first call. -/
theorem C4_size_limit_checks (table : List (String × RateLimit)) (ledger : List UsageRecord)
    (path : Key) (es rs : Option Nat) (now : Nat) (limits : RateLimit) (e r : Nat)
    (allowed : Bool) (info : RateLimitInfo) (led2 : List UsageRecord)
    (hlim : lookupLimit table (get_endpoint_category path) = some limits)
    (hm : count_requests_in_window (cleanup_old_records now (25 * 3600) ledger) now 60 <
      limits.requests_per_minute)
    (hh : count_requests_in_window (cleanup_old_records now (25 * 3600) ledger) now 3600 <
      limits.requests_per_hour)
    (hd : count_requests_in_window (cleanup_old_records now (25 * 3600) ledger) now 86400 <
      limits.requests_per_day)
    (hrun : check_rate_limit table ledger path es rs now = some (allowed, info, led2)) :
    (es = some e → e > limits.export_size_limit →
      allowed = false ∧ info.exceeded = some "export_size_limit" ∧
        led2 = cleanup_old_records now (25 * 3600) ledger) ∧
    (truthyGt es limits.export_size_limit = false →
      rs = some r → r > limits.request_size_limit →
      allowed = false ∧ info.exceeded = some "request_size_limit" ∧
        led2 = cleanup_old_records now (25 * 3600) ledger) := by
  simp only [check_rate_limit, hlim] at hrun
  rw [if_neg (by omega), if_neg (by omega), if_neg (by omega)] at hrun
  constructor
  · intro hes he
    have ht : truthyGt es limits.export_size_limit = true := by
      rw [hes]
      simp only [truthyGt, Bool.and_eq_true, decide_eq_true_eq]
      omega
    rw [if_pos ht] at hrun
    simp only [Option.some.injEq, Prod.mk.injEq] at hrun
    obtain ⟨ha, hi, hl⟩ := hrun
    exact ⟨ha.symm, by rw [← hi], hl.symm⟩
  · intro hesf hrs hr
    have ht : truthyGt rs limits.request_size_limit = true := by
      rw [hrs]
      simp only [truthyGt, Bool.and_eq_true, decide_eq_true_eq]
      omega
    rw [if_neg (by rw [hesf]; exact Bool.false_ne_true), if_pos ht] at hrun
    simp only [Option.some.injEq, Prod.mk.injEq] at hrun
    obtain ⟨ha, hi, hl⟩ := hrun
    exact ⟨ha.symm, by rw [← hi], hl.symm⟩

/-- Witness for the amended C4: a client with zero prior requests and
`export_size = 2000 > 1000` is rejected on its very first call, with the
export-size reason and no ledger append. -/
theorem C4_size_limit_checks_witness :
    (checkOut defaultLimitTable [] stopsPath (some 2000) none 100000).1 = false ∧
    (checkOut defaultLimitTable [] stopsPath (some 2000) none 100000).2.1.exceeded =
      some "export_size_limit" ∧
    (checkOut defaultLimitTable [] stopsPath (some 2000) none 100000).2.2 =
      cleanup_old_records 100000 (25 * 3600) [] :=
  (C4_size_limit_checks defaultLimitTable [] stopsPath (some 2000) none 100000
    ⟨60, 1000, 10000, 1000, 1048576⟩ 2000 0
    (checkOut defaultLimitTable [] stopsPath (some 2000) none 100000).1
    (checkOut defaultLimitTable [] stopsPath (some 2000) none 100000).2.1
    (checkOut defaultLimitTable [] stopsPath (some 2000) none 100000).2.2
    (by decide) (by decide) (by decide) (by decide) (by decide)).1 rfl (by decide)

/-- C9: a rejected call (for any reason) leaves the client's ledger exactly as
pruned to the 25-hour retention horizon — no record appended — while an
admitted call appends exactly one record carrying the current timestamp and
the supplied sizes (defaulted to 0). -/
theorem C9_ledger_discipline (table : List (String × RateLimit)) (ledger : List UsageRecord)
    (path : Key) (es rs : Option Nat) (now : Nat)
    (allowed : Bool) (info : RateLimitInfo) (led2 : List UsageRecord)
    (hrun : check_rate_limit table ledger path es rs now = some (allowed, info, led2)) :
    (allowed = false → led2 = cleanup_old_records now (25 * 3600) ledger) ∧
    (allowed = true →
      led2 = cleanup_old_records now (25 * 3600) ledger ++ [⟨now, rs.getD 0, es.getD 0⟩]) := by
  cases hlook : lookupLimit table (get_endpoint_category path) with
  | none =>
    simp only [check_rate_limit, hlook] at hrun
    exact Option.noConfusion hrun
  | some limits =>
    simp only [check_rate_limit, hlook] at hrun
    split_ifs at hrun <;>
      (simp only [Option.some.injEq, Prod.mk.injEq] at hrun
       obtain ⟨ha, hi, hl⟩ := hrun
       refine ⟨fun hb => ?_, fun hb => ?_⟩ <;>
         first
           | exact Bool.noConfusion (ha.trans hb)
           | exact hl.symm)

/-- Witness for C9 at a concrete admitted call: from an empty ledger, the new
ledger is exactly one record with the current timestamp. -/
theorem C9_ledger_discipline_witness :
    (checkOut defaultLimitTable [] stopsPath none none 100000).2.2 =
      cleanup_old_records 100000 (25 * 3600) [] ++ [⟨100000, 0, 0⟩] :=
  (C9_ledger_discipline defaultLimitTable [] stopsPath none none 100000
    (checkOut defaultLimitTable [] stopsPath none none 100000).1
    (checkOut defaultLimitTable [] stopsPath none none 100000).2.1
    (checkOut defaultLimitTable [] stopsPath none none 100000).2.2
    (by decide)).2 (by decide)

end TransitGov
